import Mathlib

/-!
Verification of the commit-ingestion and lesson-generation pipeline of
`src/components/GitHubAnalyzer.tsx` (CodeLearnAI).

The TypeScript component is embedded shallowly: network calls (`fetch` of
commit pages, commit details, and the chat-completion endpoint) are passed
in as oracle arguments, JavaScript strings are Lean `String`s, and the JS
string primitives used by the component (`trim`, `startsWith`, `slice`,
`split`, `replace`, `includes`) are re-implemented below over character
lists so that every definition evaluates inside the kernel.
-/

namespace CodeLearnAI

/-! ### JS string primitives -/

/-- Substring containment on character lists: `List.isPrefixOf` tried at
every position (the semantics of JS `String.prototype.includes`). -/
def listContains (pat : List Char) : List Char → Bool
  | [] => decide (pat = [])
  | c :: rest => pat.isPrefixOf (c :: rest) || listContains pat rest

/-- JS `s.includes(pat)`. -/
def strContains (s pat : String) : Bool :=
  listContains pat.data s.data

/-- JS `s.startsWith(pre)`. -/
def jsStartsWith (s pre : String) : Bool :=
  pre.data.isPrefixOf s.data

/-- JS `s.trim()`: strip leading and trailing whitespace. -/
def jsTrim (s : String) : String :=
  ⟨(((s.data.dropWhile Char.isWhitespace).reverse.dropWhile Char.isWhitespace).reverse)⟩

/-- JS `s.slice(0, n)`. -/
def strTake (s : String) (n : Nat) : String :=
  ⟨s.data.take n⟩

/-- Replace the first occurrence of `pat` by `rep` (the semantics of JS
`String.prototype.replace` with a string pattern, which substitutes only
the first match). -/
def replaceFirstL (pat rep : List Char) : List Char → List Char
  | [] => if pat = [] then rep else []
  | c :: rest =>
    if pat.isPrefixOf (c :: rest) then rep ++ (c :: rest).drop pat.length
    else c :: replaceFirstL pat rep rest

/-- JS `s.replace(pat, rep)` (first occurrence only). -/
def jsReplaceFirst (s pat rep : String) : String :=
  ⟨replaceFirstL pat.data rep.data s.data⟩

/-- JS `s.split(sep)` for a single-character separator. -/
def splitOnCharL (sep : Char) : List Char → List (List Char)
  | [] => [[]]
  | c :: rest =>
    if c = sep then [] :: splitOnCharL sep rest
    else
      match splitOnCharL sep rest with
      | [] => [[c]]
      | g :: gs => (c :: g) :: gs

/-- JS `s.split("/")`, as strings. -/
def jsSplitSlash (s : String) : List String :=
  (splitOnCharL '/' s.data).map List.asString

/-! ### Data model (the interfaces of `GitHubAnalyzer.tsx`) -/

/-- `interface CommitDiff` of the component. -/
structure CommitDiff where
  sha : String
  message : String
  diff : String
  explanation : Option String
deriving DecidableEq, Repr

/-- `interface GitCommit`: a commit summary from the list endpoint; the
nested `commit.message` may be absent (the code reads
`commit.commit?.message ?? ""`). -/
structure GitCommit where
  sha : String
  message : Option String
deriving DecidableEq, Repr

/-- The `{owner, repo}` pair produced by `extractRepoInfo`. -/
structure RepoInfo where
  owner : String
  repo : String
deriving DecidableEq, Repr

/-! ### Repository locator (`extractRepoInfo`, lines 44-53)

`new URL(url)` is a platform API; it is passed in as an oracle
`parse : String → Option String` returning `some pathname` when the URL
constructor succeeds and `none` when it throws (the `catch` branch). The
destructuring `const [, owner, repo] = pathname.split("/")` reads array
slots 1 and 2, a missing slot being `undefined`, which is falsy exactly
like the empty string. -/
def extractRepoInfo (parse : String → Option String) (url : String) :
    Option RepoInfo :=
  match parse url with
  | none => none
  | some pathname =>
    let segs := jsSplitSlash pathname
    let owner := segs.getD 1 ("")
    let repo := segs.getD 2 ("")
    if owner = "" ∨ repo = "" then none
    else some ⟨owner, jsReplaceFirst repo (".git") ""⟩

/-! ### Commit enumeration (the `while (true)` page loop, lines 84-105)

Each `fetch` of a commit page is an oracle `Nat → PageResult` indexed by
the page number. The loop starts at `page = 1` with `perPage = 100`,
appends each page, stops when a page has fewer than 100 items, and throws
on a non-ok response (with the rate-limit message for status 403). The
`fuel` argument is an artifact of the embedding: the source loop is
unbounded, and `none` models the (unreachable for finite repositories)
case of running out of fuel. The result pairs the number of page requests
issued with either the aggregated list or the failing HTTP status. -/

/-- Result of one page request. -/
inductive PageResult where
  | ok (commits : List GitCommit)
  | err (status : Nat)
deriving DecidableEq, Repr

/-- The error message thrown for a failed page request (lines 93-98). -/
def enumErrMsg (status : Nat) : String :=
  if status = 403 then ("GitHub API rate limit reached. Provide a personal token.")
  else ("Failed to fetch commit history")

/-- The page loop: `(requests issued, aggregated commits or failing status)`. -/
def enumLoop (oracle : Nat → PageResult) :
    Nat → Nat → Option (Nat × Except Nat (List GitCommit))
  | 0, _ => none
  | fuel + 1, page =>
    match oracle page with
    | .err s => some (1, .error s)
    | .ok pg =>
      if pg.length < 100 then some (1, .ok pg)
      else
        match enumLoop oracle fuel (page + 1) with
        | none => none
        | some (n, .error s) => some (n + 1, .error s)
        | some (n, .ok rest) => some (n + 1, .ok (pg ++ rest))

/-- The backend page oracle of a repository whose full commit list is `l`:
page `p` (1-based) serves items `(p-1)*100 .. p*100`. -/
def pageOracle (l : List GitCommit) : Nat → PageResult :=
  fun p => .ok ((l.drop ((p - 1) * 100)).take 100)

/-! ### Diff assembly (lines 127-136) -/

/-- One entry of `commitDetails.files`; `patch` is optional. -/
structure FileEntry where
  filename : String
  patch : Option String
deriving DecidableEq, Repr

/-- JS truthiness of `file.patch`: `undefined` and `""` are falsy. -/
def patchTruthy : Option String → Bool
  | none => false
  | some p => p ≠ ""

/-- The block appended for one file with a truthy patch (line 132). -/
def fileBlock (f : FileEntry) : String :=
  "### " ++ f.filename ++ "\n```diff\n" ++ f.patch.getD ("") ++ "\n```\n"

/-- The `forEach` accumulation over `commitDetails.files`. -/
def buildDiffText (files : List FileEntry) : String :=
  files.foldl (fun acc f => if patchTruthy f.patch then acc ++ fileBlock f else acc) ""

/-- `diffText` for a commit detail: `""` unless `files` is present and
non-empty (line 128), else the `forEach` accumulation. -/
def assembleDiffText (files : Option (List FileEntry)) : String :=
  match files with
  | none => ""
  | some fs => if fs.length > 0 then buildDiffText fs else ("")

/-! ### Per-commit detail loop (lines 110-158)

Each per-commit `fetch` is an oracle `String → DetailResult` keyed by the
commit sha. A non-ok response throws an error whose message is the
rate-limit text for status 403, else `"Failed to fetch commit " ++ sha`;
the catch block breaks out of the loop when the caught message contains
the substring `"rate limit"` and otherwise skips the commit. -/

/-- Result of one commit-detail request. -/
inductive DetailResult where
  | ok (files : Option (List FileEntry))
  | err (status : Nat)
deriving Repr

/-- The error message thrown for a failed detail request (lines 117-123). -/
def commitErrMsg (status : Nat) (sha : String) : String :=
  if status = 403 then ("GitHub API rate limit reached. Provide a personal token.")
  else ("Failed to fetch commit ") ++ sha

/-- The `for (const commit of allCommits)` loop: builds the `diffs` array,
skipping a commit whose fetch fails, and breaking (keeping the records
accumulated so far) when the caught error message contains `"rate limit"`
(lines 143-157). -/
def detailLoop (oracle : String → DetailResult) : List GitCommit → List CommitDiff
  | [] => []
  | c :: rest =>
    match oracle c.sha with
    | .ok files =>
      { sha := c.sha, message := c.message.getD (""),
        diff := assembleDiffText files, explanation := none } :: detailLoop oracle rest
    | .err status =>
      if strContains (commitErrMsg status c.sha) "rate limit" then []
      else detailLoop oracle rest

/-- Modelled from the spec: the per-commit loop as the partial-failure
policy states it, dispatching on the HTTP status itself — a 403 stops the
loop, any other failure skips the commit. Used only to compare
`detailLoop` against the claimed behavior. -/
def detailLoopSpec (oracle : String → DetailResult) : List GitCommit → List CommitDiff
  | [] => []
  | c :: rest =>
    match oracle c.sha with
    | .ok files =>
      { sha := c.sha, message := c.message.getD (""),
        diff := assembleDiffText files, explanation := none } :: detailLoopSpec oracle rest
    | .err status =>
      if status = 403 then [] else detailLoopSpec oracle rest

/-- The whole of `fetchRepoData` after URL validation: enumeration
followed by the detail loop. An enumeration failure is caught by the
outer `catch` (lines 166-176), which leaves the session's `repoData`
unchanged; on success `setRepoData({ diffs })` replaces it. Returns the
new `repoData.diffs` value paired with the surfaced error message, if
any. -/
def fetchRepoDataModel (pageOr : Nat → PageResult) (detailOr : String → DetailResult)
    (fuel : Nat) (old : Option (List CommitDiff)) :
    Option (List CommitDiff) × Option String :=
  match enumLoop pageOr fuel 1 with
  | none => (old, none)
  | some (_, .error s) => (old, some (enumErrMsg s))
  | some (_, .ok commits) => (some (detailLoop detailOr commits), none)

/-! ### Prompt builder and lesson generator (`generateLesson`, lines 181-291) -/

/-- The untruncated payload: `` `Commit message: ${diff.message}\n\n${diff.diff}` `` (line 216). -/
def promptBody (message diff : String) : String :=
  "Commit message: " ++ message ++ "\n\n" ++ diff

/-- The literal truncation marker (line 220). -/
def truncationMarker : String :=
  "\n\n[Content truncated due to size limits]"

/-- `contentToAnalyze` after the size check (lines 216-221). -/
def buildPrompt (message diff : String) : String :=
  let content := promptBody message diff
  if content.length > 50000 then strTake content 50000 ++ truncationMarker
  else content

/-- Outcome of the chat-completion `fetch`: a non-ok status (with the
optional `error.message` of the JSON body), or a success whose
`choices[0].message.content` may be missing (`none`). -/
inductive ApiResult where
  | httpError (status : Nat) (errMsg : Option String)
  | success (content : Option String)
deriving Repr

/-- How `generateLesson` exits. -/
inductive LessonOutcome where
  | missingData
  | invalidKey
  | indexError
  | noDiff
  | providerError
  | malformed
  | ok
deriving DecidableEq, Repr

/-- The outbound chat-completion request, as far as the claims need it:
the `Authorization` header (line 242) and the user-message content. -/
structure ChatRequest where
  authHeader : String
  userContent : String
deriving DecidableEq, Repr

/-- Result of one `generateLesson(index)` call: the new `repoData.diffs`,
the request issued (`none` when no network call was made), and the exit
outcome. -/
structure LessonResult where
  diffs : List CommitDiff
  request : Option ChatRequest
  outcome : LessonOutcome
deriving DecidableEq, Repr

/-- `generateLesson` (lines 181-291). Guards in source order: the
`!openaiKey.trim()` truthiness check inside `!repoData || !openaiKey.trim()`
(line 183), the `sk-` prefix check on the trimmed key (line 193), the
read of `repoData.diffs[index]` (an out-of-range index makes `diff.diff`
throw, caught by the catch block with nothing mutated), the empty-diff
guard (line 207). The request carries `Bearer ${openaiKey}` built from
the raw, untrimmed key (line 242) and the truncated prompt. On success
the record at `index` gets its `explanation` overwritten; every failure
leaves `diffs` unchanged. -/
def generateLesson (openaiKey : String) (diffs : List CommitDiff) (index : Nat)
    (api : ApiResult) : LessonResult :=
  if jsTrim openaiKey = "" then ⟨diffs, none, .missingData⟩
  else if ¬ jsStartsWith (jsTrim openaiKey) "sk-" then ⟨diffs, none, .invalidKey⟩
  else
    match diffs[index]? with
    | none => ⟨diffs, none, .indexError⟩
    | some d =>
      if d.diff = "" then ⟨diffs, none, .noDiff⟩
      else
        let req : ChatRequest := ⟨"Bearer " ++ openaiKey, buildPrompt d.message d.diff⟩
        match api with
        | .httpError _ _ => ⟨diffs, some req, .providerError⟩
        | .success none => ⟨diffs, some req, .malformed⟩
        | .success (some content) =>
          ⟨diffs.set index { d with explanation := some content }, some req, .ok⟩

/-! ### Lesson navigator (lines 295-301 and 479-507)

State: `showLessons` and `currentIndex`. `start` is the `startLessons`
handler (button rendered only in the list view, guard
`repoData?.diffs.length` truthy); `prev`/`next`/`exit` are the walkthrough
buttons, with their `disabled` conditions folded into the step function
(a disabled button cannot fire). `len` is `repoData.diffs.length` and
`busy` is `isProcessing`. -/

structure NavState where
  showLessons : Bool
  currentIndex : Nat
deriving DecidableEq, Repr

inductive NavAction where
  | start
  | next
  | prev
  | leave
deriving DecidableEq, Repr

/-- One user interaction with the navigator. -/
def navStep (len : Nat) (busy : Bool) (s : NavState) : NavAction → NavState
  | .start => if s.showLessons = false ∧ len ≠ 0 then ⟨true, 0⟩ else s
  | .next =>
    if s.showLessons = true ∧ busy = false ∧ s.currentIndex < len - 1 then
      ⟨true, min (s.currentIndex + 1) (len - 1)⟩
    else s
  | .prev =>
    if s.showLessons = true ∧ busy = false ∧ s.currentIndex ≠ 0 then
      ⟨true, s.currentIndex - 1⟩
    else s
  | .leave => if s.showLessons = true then ⟨false, s.currentIndex⟩ else s

/-! ## Lemmas and claim theorems -/

/-- Number of page requests the loop issues for `n` total commits: one
request per full page, plus a final request for the short last page — an
extra empty-page request when `n` is an exact multiple of 100. -/
def pageRequests (n : Nat) : Nat :=
  if n % 100 = 0 then n / 100 + 1 else (n + 99) / 100

theorem enumLoop_last (oracle : Nat → PageResult) (fuel page : Nat) (l : List GitCommit)
    (h1 : oracle page = .ok l) (hlen : l.length < 100) :
    enumLoop oracle (fuel + 1) page = some (1, .ok l) := by
  have htake : l.take 100 = l := List.take_of_length_le (by omega)
  simp [enumLoop, h1, htake, hlen]

theorem pageRequests_small (n : Nat) (h : n < 100) : pageRequests n = 1 := by
  unfold pageRequests; split <;> omega

theorem pageRequests_step (n : Nat) (h : 100 ≤ n) :
    pageRequests (n - 100) + 1 = pageRequests n := by
  unfold pageRequests
  have hm : (n - 100) % 100 = n % 100 := by omega
  rw [hm]
  split <;> omega

theorem enumLoop_full (oracle : Nat → PageResult) (fuel page : Nat) (pg : List GitCommit)
    (h1 : oracle page = .ok pg) (hlen : ¬ pg.length < 100) :
    enumLoop oracle (fuel + 1) page
      = match enumLoop oracle fuel (page + 1) with
        | none => none
        | some (n, .error s) => some (n + 1, .error s)
        | some (n, .ok rest) => some (n + 1, .ok (pg ++ rest)) := by
  conv_lhs => rw [enumLoop]
  rw [h1]
  simp only [if_neg hlen]

theorem enumLoop_serves (fuel : Nat) :
    ∀ (l : List GitCommit) (page : Nat) (oracle : Nat → PageResult),
      (∀ p, page ≤ p → oracle p = .ok ((l.drop ((p - page) * 100)).take 100)) →
      l.length ≤ 100 * fuel + 99 →
      enumLoop oracle (fuel + 1) page = some (pageRequests l.length, .ok l) := by
  induction fuel with
  | zero =>
    intro l page oracle h hlen
    have h1 := h page le_rfl
    simp only [Nat.sub_self, Nat.zero_mul, List.drop_zero] at h1
    have htake : l.take 100 = l := List.take_of_length_le (by omega)
    rw [htake] at h1
    rw [enumLoop_last oracle 0 page l h1 (by omega), pageRequests_small l.length (by omega)]
  | succ fuel ih =>
    intro l page oracle h hlen
    by_cases hsmall : l.length < 100
    · have h1 := h page le_rfl
      simp only [Nat.sub_self, Nat.zero_mul, List.drop_zero] at h1
      have htake : l.take 100 = l := List.take_of_length_le (by omega)
      rw [htake] at h1
      rw [enumLoop_last oracle (fuel + 1) page l h1 hsmall,
        pageRequests_small l.length hsmall]
    · have h1 := h page le_rfl
      simp only [Nat.sub_self, Nat.zero_mul, List.drop_zero] at h1
      have htl : (l.take 100).length = 100 := by
        simp [List.length_take]; omega
      have hrec := ih (l.drop 100) (page + 1) oracle ?_ ?_
      · rw [enumLoop_full oracle (fuel + 1) page (l.take 100) h1 (by omega), hrec]
        show some (pageRequests (l.drop 100).length + 1, Except.ok (l.take 100 ++ l.drop 100))
          = some (pageRequests l.length, Except.ok l)
        rw [List.take_append_drop, List.length_drop,
          pageRequests_step l.length (by omega)]
      · intro p hp
        have hop := h p (by omega)
        have harith : 100 + (p - (page + 1)) * 100 = (p - page) * 100 := by omega
        rw [hop, List.drop_drop, harith]
      · rw [List.length_drop]; omega

/-- C1 (amended): serving `N` total commits at page size 100 from page 1,
the pagination loop of `fetchRepoData` aggregates exactly the full list,
in upstream order, and issues `ceil(N/100)` page requests when `N` is not
a multiple of 100, but `N/100 + 1` requests (one extra, empty final page)
when `N` is a multiple of 100 — including one request when `N = 0`. -/
theorem c1_pagination (l : List GitCommit) (fuel : Nat)
    (hfuel : l.length ≤ 100 * fuel + 99) :
    enumLoop (pageOracle l) (fuel + 1) 1 = some (pageRequests l.length, .ok l) :=
  enumLoop_serves fuel l 1 (pageOracle l) (fun _ _ => rfl) hfuel

/-- Witness for C1: a one-commit repository is enumerated in a single
page request, aggregating exactly that commit. -/
theorem c1_pagination_witness :
    ([(⟨"a", none⟩ : GitCommit)].length ≤ 100 * 0 + 99)
    ∧ enumLoop (pageOracle [(⟨"a", none⟩ : GitCommit)]) (0 + 1) 1
        = some (pageRequests 1, .ok [(⟨"a", none⟩ : GitCommit)]) :=
  ⟨by decide, c1_pagination [(⟨"a", none⟩ : GitCommit)] 0 (by decide)⟩

/-- Counterexample for C1 as stated: a repository with exactly 100
commits is enumerated with 2 page requests (the second returning the
empty page), not `ceil(100/100) = 1` as the claim asserts. -/
theorem c1_counterexample :
    enumLoop (pageOracle (List.replicate 100 (⟨"s", none⟩ : GitCommit))) 101 1
      = some (2, .ok (List.replicate 100 (⟨"s", none⟩ : GitCommit)))
    ∧ (2 : Nat) ≠ (100 + 99) / 100 :=
  ⟨rfl, by decide⟩

/-! ### Helper lemmas -/

theorem strData_inj (s t : String) (h : s.data = t.data) : s = t := by
  cases s; cases t; simp_all

theorem strJoin_cons (a : String) (l : List String) :
    String.join (a :: l) = a ++ String.join l := by
  apply strData_inj
  simp [String.data_join]

theorem jsTrim_ne_empty_of_sk (key : String)
    (h : jsStartsWith (jsTrim key) "sk-" = true) : ¬ jsTrim key = "" := by
  intro he
  rw [he] at h
  exact absurd h (by decide)

theorem getElem?_lt_length (l : List CommitDiff) (i : Nat) (a : CommitDiff)
    (h : l[i]? = some a) : i < l.length := by
  by_contra hc
  rw [List.getElem?_eq_none (by omega)] at h
  exact absurd h (by simp)

/-! ### C2: prompt construction and truncation -/

theorem mk_replicate_length (n : Nat) (c : Char) :
    (String.mk (List.replicate n c)).length = n := by
  simp [String.length]

theorem promptBody_length (m d : String) :
    (promptBody m d).length = 18 + m.length + d.length := by
  have h1 : ("Commit message: " : String).length = 16 := rfl
  have h2 : ("\n\n" : String).length = 2 := rfl
  simp only [promptBody, String.length_append, h1, h2]
  omega

/-- C2: whenever `generateLesson` issues a chat-completion request for a
record `d`, the user-message content is exactly `buildPrompt d.message
d.diff`; the payload is the literal prefix `Commit message: ` plus the
message, a blank line, then the full diff, and it is cut to its first
50,000 characters with the truncation marker appended exactly when its
length exceeds 50,000 — a payload of at most 50,000 characters passes
through unmodified. -/
theorem c2_prompt_truncation (key : String) (diffs : List CommitDiff) (i : Nat)
    (d : CommitDiff) (api : ApiResult)
    (hk : jsStartsWith (jsTrim key) "sk-" = true)
    (hi : diffs[i]? = some d) (hd : ¬ d.diff = "") :
    ((generateLesson key diffs i api).request.map ChatRequest.userContent
        = some (buildPrompt d.message d.diff))
    ∧ ((promptBody d.message d.diff).length ≤ 50000 →
        buildPrompt d.message d.diff = promptBody d.message d.diff)
    ∧ ((promptBody d.message d.diff).length > 50000 →
        buildPrompt d.message d.diff
          = strTake (promptBody d.message d.diff) 50000 ++ truncationMarker) := by
  have h0 := jsTrim_ne_empty_of_sk key hk
  refine ⟨?_, fun hle => ?_, fun hgt => ?_⟩
  · cases api with
    | httpError s m => simp [generateLesson, h0, hk, hi, hd]
    | success c => cases c <;> simp [generateLesson, h0, hk, hi, hd]
  · simp only [buildPrompt]
    rw [if_neg (by omega)]
  · simp only [buildPrompt]
    rw [if_pos (by omega)]

/-- A diff of 49,982 characters: the prompt payload built from it and an
empty commit message is exactly 50,000 characters long. -/
def bigDiff50000 : String := ⟨List.replicate 49982 'a'⟩

/-- A diff of 49,983 characters: the corresponding payload is 50,001
characters long. -/
def bigDiff50001 : String := ⟨List.replicate 49983 'a'⟩

/-- Witness for C2: the 50,000-character payload is passed through
unmodified, the 50,001-character payload is truncated and marked, and
the request issued by `generateLesson` carries the built prompt. -/
theorem c2_witness :
    (promptBody ("") bigDiff50000).length = 50000
    ∧ buildPrompt ("") bigDiff50000 = promptBody ("") bigDiff50000
    ∧ (promptBody ("") bigDiff50001).length = 50001
    ∧ buildPrompt ("") bigDiff50001
        = strTake (promptBody ("") bigDiff50001) 50000 ++ truncationMarker
    ∧ (generateLesson ("sk-a") [⟨"s", "", bigDiff50000, none⟩] 0
          (.success (some ("L")))).request.map ChatRequest.userContent
        = some (buildPrompt ("") bigDiff50000) := by
  have hb0 : bigDiff50000.length = 49982 := mk_replicate_length 49982 'a'
  have hb1 : bigDiff50001.length = 49983 := mk_replicate_length 49983 'a'
  have hl0 : (promptBody ("") bigDiff50000).length = 50000 := by
    rw [promptBody_length, hb0]; rfl
  have hl1 : (promptBody ("") bigDiff50001).length = 50001 := by
    rw [promptBody_length, hb1]; rfl
  have hgt : 50000 < (promptBody ("") bigDiff50001).length := by
    rw [hl1]; norm_num
  have hc0 := c2_prompt_truncation ("sk-a") [⟨"s", "", bigDiff50000, none⟩] 0
    ⟨"s", "", bigDiff50000, none⟩ (.success (some ("L"))) (by decide) rfl (by decide)
  have hc1 := c2_prompt_truncation ("sk-a") [⟨"s", "", bigDiff50001, none⟩] 0
    ⟨"s", "", bigDiff50001, none⟩ (.success (some ("L"))) (by decide) rfl (by decide)
  exact ⟨hl0, hc0.2.1 (le_of_eq hl0), hl1, hc1.2.2 hgt, hc0.1⟩

/-! ### C3: partial-failure policy of the per-commit detail loop -/

theorem commitErrMsg_403 (sha : String) :
    commitErrMsg 403 sha = "GitHub API rate limit reached. Provide a personal token." := by
  simp [commitErrMsg]

theorem commitErrMsg_other (status : Nat) (sha : String) (h : status ≠ 403) :
    commitErrMsg status sha = "Failed to fetch commit " ++ sha := by
  simp [commitErrMsg, h]

/-- C3 (amended): in the per-commit diff-fetch loop, a fetch failure for
one commit is skipped and the loop continues, unless the caught error
message contains the substring `rate limit`, in which case the loop stops
and keeps the records accumulated so far. The message of a 403 failure
always contains that substring; a non-403 failure message is
`Failed to fetch commit ` followed by the sha, so provided no commit's
error message smuggles in the substring (e.g. via its sha), the loop
behaves exactly as the claim states: skip on non-403, stop on 403. -/
theorem c3_partial_failure (oracle : String → DetailResult) (commits : List GitCommit)
    (h : ∀ c ∈ commits, strContains ("Failed to fetch commit " ++ c.sha) "rate limit" = false) :
    detailLoop oracle commits = detailLoopSpec oracle commits := by
  induction commits with
  | nil => rfl
  | cons c rest ih =>
    have hc := h c (List.mem_cons_self c rest)
    have hrest := fun x hx => h x (List.mem_cons_of_mem c hx)
    cases horacle : oracle c.sha with
    | ok files =>
      simp only [detailLoop, detailLoopSpec, horacle]
      rw [ih hrest]
    | err status =>
      simp only [detailLoop, detailLoopSpec, horacle]
      by_cases hs : status = 403
      · subst hs
        rw [commitErrMsg_403]
        simp [show strContains
          ("GitHub API rate limit reached. Provide a personal token.") "rate limit" = true
          from by decide]
      · rw [commitErrMsg_other status c.sha hs, hc]
        simp [hs]
        exact ih hrest

/-- Ten commit summaries whose 5th sha contains the substring
`rate limit`. -/
def c3commitsBad : List GitCommit :=
  [⟨"c1", some ("m")⟩, ⟨"c2", some ("m")⟩, ⟨"c3", some ("m")⟩, ⟨"c4", some ("m")⟩,
   ⟨"c5 rate limit", some ("m")⟩, ⟨"c6", some ("m")⟩, ⟨"c7", some ("m")⟩,
   ⟨"c8", some ("m")⟩, ⟨"c9", some ("m")⟩, ⟨"c10", some ("m")⟩]

/-- A detail oracle failing with HTTP 500 (not 403) on the 5th commit of
`c3commitsBad` and succeeding on every other commit. -/
def c3oracleBad : String → DetailResult :=
  fun sha => if sha = "c5 rate limit" then .err 500 else .ok (some [⟨"f", some ("p")⟩])

/-- Counterexample for C3 as stated: a non-403 failure (HTTP 500) on the
5th of 10 per-commit fetches stops the loop after 4 records, because the
thrown message `Failed to fetch commit c5 rate limit` contains the
substring `rate limit`; the claim predicts the commit is skipped and the
loop continues, which would yield 9 records (the behavior of
`detailLoopSpec`). -/
theorem c3_counterexample :
    (detailLoop c3oracleBad c3commitsBad).length = 4
    ∧ (detailLoopSpec c3oracleBad c3commitsBad).length = 9
    ∧ (500 : Nat) ≠ 403 := by
  refine ⟨by decide, by decide, by decide⟩

/-- Ten commit summaries with plain shas. -/
def c3commits : List GitCommit :=
  [⟨"c1", some ("m")⟩, ⟨"c2", some ("m")⟩, ⟨"c3", some ("m")⟩, ⟨"c4", some ("m")⟩,
   ⟨"c5", some ("m")⟩, ⟨"c6", some ("m")⟩, ⟨"c7", some ("m")⟩,
   ⟨"c8", some ("m")⟩, ⟨"c9", some ("m")⟩, ⟨"c10", some ("m")⟩]

/-- A detail oracle failing with HTTP 403 on the 5th commit of
`c3commits` and succeeding on every other commit. -/
def c3oracle403 : String → DetailResult :=
  fun sha => if sha = "c5" then .err 403 else .ok (some [⟨"f", some ("p")⟩])

/-- Witness for C3: with plain shas and a 403 on the 5th of 10 detail
fetches, the loop matches the claimed policy and keeps exactly the 4
records accumulated before the rate-limit signal. -/
theorem c3_witness :
    (∀ c ∈ c3commits, strContains ("Failed to fetch commit " ++ c.sha) "rate limit" = false)
    ∧ detailLoop c3oracle403 c3commits = detailLoopSpec c3oracle403 c3commits
    ∧ (detailLoop c3oracle403 c3commits).length = 4 :=
  ⟨by decide, c3_partial_failure c3oracle403 c3commits (by decide), by decide⟩

/-! ### C4: repository locator -/

theorem replaceFirstL_trailing (pat rep : List Char) (hp : pat ≠ []) :
    ∀ base : List Char,
      (∀ i, i < base.length → pat.isPrefixOf ((base ++ pat).drop i) = false) →
      replaceFirstL pat rep (base ++ pat) = base ++ rep := by
  intro base
  induction base with
  | nil =>
    intro _
    show replaceFirstL pat rep pat = rep
    cases hpat : pat with
    | nil => exact absurd hpat hp
    | cons c cs =>
      unfold replaceFirstL
      have hpre : (c :: cs).isPrefixOf (c :: cs) = true := by
        simp [List.isPrefixOf_iff_prefix]
      rw [hpre]
      simp [← hpat, List.drop_length]
  | cons c rest ih =>
    intro h
    have h0 := h 0 (by simp)
    simp only [List.drop_zero, List.cons_append] at h0
    show replaceFirstL pat rep (c :: (rest ++ pat)) = c :: (rest ++ rep)
    unfold replaceFirstL
    rw [h0]
    simp only [Bool.false_eq_true, if_false]
    congr 1
    refine ih (fun i hi => ?_)
    have := h (i + 1) (by simp; omega)
    simpa using this

/-- C4 (amended): `extractRepoInfo` returns the (owner, name) pair exactly
when the platform URL constructor succeeds on the input and path segments
1 and 2 of the resulting pathname are non-empty; the name has the FIRST
occurrence of the substring `.git` removed — which strips a trailing
`.git` suffix whenever that trailing suffix is the first occurrence (last
conjunct). When the URL constructor throws (as it does for scheme-less
`host/owner/name` strings) or a segment is missing or empty, the result
is the `InvalidUrl` failure (`none`). No network access is involved:
`extractRepoInfo` is a pure function of the parse oracle's answer. -/
theorem c4_locator (parse : String → Option String) (url : String) :
    (parse url = none → extractRepoInfo parse url = none)
    ∧ (∀ pathname, parse url = some pathname →
        (((jsSplitSlash pathname).getD 1 ("") = "" ∨ (jsSplitSlash pathname).getD 2 ("") = "") →
          extractRepoInfo parse url = none)
        ∧ ((jsSplitSlash pathname).getD 1 ("") ≠ "" → (jsSplitSlash pathname).getD 2 ("") ≠ "" →
          extractRepoInfo parse url
            = some ⟨(jsSplitSlash pathname).getD 1 (""),
                jsReplaceFirst ((jsSplitSlash pathname).getD 2 ("")) ".git" ""⟩))
    ∧ (∀ base : List Char,
        (∀ i, i < base.length →
          (".git" : String).data.isPrefixOf ((base ++ (".git" : String).data).drop i) = false) →
        jsReplaceFirst ⟨base ++ (".git" : String).data⟩ ".git" "" = ⟨base⟩) := by
  refine ⟨fun hne => ?_, fun pathname hsome => ⟨fun hor => ?_, fun h1 h2 => ?_⟩,
    fun base hb => ?_⟩
  · simp [extractRepoInfo, hne]
  · simp only [extractRepoInfo, hsome]
    rw [if_pos hor]
  · simp only [extractRepoInfo, hsome]
    rw [if_neg (by tauto)]
  · show String.mk (replaceFirstL (".git" : String).data [] (base ++ (".git" : String).data))
      = String.mk base
    rw [replaceFirstL_trailing (".git" : String).data [] (by decide) base hb]
    simp

/-- Counterexample for C4 as stated: for the URL path `/o/a.gitb` the name
segment `a.gitb` carries no trailing `.git` suffix, yet the code removes
the embedded first occurrence and returns `ab`. -/
theorem c4_counterexample :
    extractRepoInfo (fun _ => some ("/o/a.gitb")) "https://github.com/o/a.gitb"
      = some ⟨"o", "ab"⟩
    ∧ ("ab" : String) ≠ "a.gitb" := by
  refine ⟨by decide, by decide⟩

/-- Witness for C4: a two-segment path with a trailing (first-occurrence)
`.git` yields the owner and the stripped name. -/
theorem c4_witness :
    extractRepoInfo (fun _ => some ("/own/repo.git")) "https://github.com/own/repo.git"
      = some ⟨"own", jsReplaceFirst ("repo.git") ".git" ""⟩
    ∧ jsReplaceFirst ("repo.git") ".git" "" = "repo" := by
  refine ⟨?_, by decide⟩
  have hc := (c4_locator (fun _ => some ("/own/repo.git"))
    "https://github.com/own/repo.git").2.1 ("/own/repo.git") rfl
  have h2 := hc.2 (by decide) (by decide)
  rw [h2]
  decide

/-! ### C5: diff assembly -/

theorem buildDiffText_go (fs : List FileEntry) :
    ∀ acc : String,
      fs.foldl (fun acc f => if patchTruthy f.patch then acc ++ fileBlock f else acc) acc
        = acc ++ String.join ((fs.filter (fun f => patchTruthy f.patch)).map fileBlock) := by
  induction fs with
  | nil =>
    intro acc
    apply strData_inj
    simp [String.data_join]
  | cons f rest ih =>
    intro acc
    simp only [List.foldl_cons, List.filter_cons]
    by_cases hf : patchTruthy f.patch = true
    · rw [if_pos hf, if_pos hf, List.map_cons, strJoin_cons, ih (acc ++ fileBlock f),
        String.append_assoc]
    · rw [if_neg hf, if_neg hf, ih acc]

/-- C5 (amended): `diffText` is the concatenation, in file order, of one
block per file entry whose patch is present and non-empty (a header line
naming the file followed by a fenced diff block with the raw patch text);
no block is emitted for a file whose patch is absent or empty, and when
no file has patch data, or the file list is absent, `diffText` is the
empty string. (A skipped filename may still occur inside `diffText` as a
substring of another file's block, so "appears nowhere" does not hold
literally.) -/
theorem c5_diff_assembly (fs : List FileEntry) :
    assembleDiffText (some fs)
      = String.join ((fs.filter (fun f => patchTruthy f.patch)).map fileBlock)
    ∧ assembleDiffText none = ""
    ∧ ((∀ f ∈ fs, patchTruthy f.patch = false) → assembleDiffText (some fs) = "") := by
  have hmain : assembleDiffText (some fs)
      = String.join ((fs.filter (fun f => patchTruthy f.patch)).map fileBlock) := by
    cases fs with
    | nil => rfl
    | cons f rest =>
      have h1 : assembleDiffText (some (f :: rest)) = buildDiffText (f :: rest) := by
        simp [assembleDiffText]
      rw [h1]
      unfold buildDiffText
      rw [buildDiffText_go (f :: rest) ""]
      apply strData_inj
      simp [String.data_join]
  refine ⟨hmain, rfl, fun hall => ?_⟩
  rw [hmain, List.filter_eq_nil_iff.mpr (by simpa using hall)]
  rfl

/-- Counterexample for C5 as stated: the patch of `a.ts` mentions `b.ts`,
so even though `b.ts` has no patch (and gets no block), its filename does
appear inside `diffText`, contradicting "their filename appears nowhere
in diffText". -/
theorem c5_counterexample :
    strContains (assembleDiffText (some [⟨"a.ts", some ("see b.ts")⟩, ⟨"b.ts", none⟩]))
      ("b.ts") = true := by
  decide

/-- Witness for C5: the claim's own example — files `a.ts` with patch `X`
and `b.ts` with no patch — yields exactly the one fenced block for
`a.ts`; a list whose entries all lack patch data yields the empty
string. -/
theorem c5_witness :
    assembleDiffText (some [⟨"a.ts", some ("X")⟩, ⟨"b.ts", none⟩])
      = String.join [fileBlock ⟨"a.ts", some ("X")⟩]
    ∧ assembleDiffText (some [⟨"b.ts", none⟩]) = "" := by
  constructor
  · have h := (c5_diff_assembly [⟨"a.ts", some ("X")⟩, ⟨"b.ts", none⟩]).1
    rw [h]
    decide
  · exact (c5_diff_assembly [⟨"b.ts", none⟩]).2.2 (by decide)

/-! ### C6: navigator invariant and transitions -/

/-- C6: over a collection of length `len`, the navigator preserves
`currentIndex < len` whenever the walkthrough view is shown (first
conjunct, for every action); `start` from the list view is permitted only
when the collection is non-empty, where it sets the index to 0, and is a
no-op on an empty collection; `next` moves to `min (i+1) (len-1)` (a
no-op at the last index); `prev` moves to `i-1` clamped at 0 (a no-op at
index 0); `exit` never changes `currentIndex`. -/
theorem c6_navigator (len : Nat) (busy : Bool) (s : NavState) (a : NavAction)
    (hinv : s.showLessons = true → s.currentIndex < len) :
    ((navStep len busy s a).showLessons = true → (navStep len busy s a).currentIndex < len)
    ∧ (s.showLessons = false → len ≠ 0 → navStep len busy s NavAction.start = ⟨true, 0⟩)
    ∧ (s.showLessons = false → len = 0 → navStep len busy s NavAction.start = s)
    ∧ (s.showLessons = true → busy = false →
        (navStep len busy s NavAction.next).currentIndex = min (s.currentIndex + 1) (len - 1))
    ∧ (s.showLessons = true → busy = false →
        (navStep len busy s NavAction.prev).currentIndex = s.currentIndex - 1)
    ∧ (navStep len busy s NavAction.leave).currentIndex = s.currentIndex := by
  refine ⟨?_, fun hs hlen => ?_, fun hs hlen => ?_, fun hs hb => ?_, fun hs hb => ?_, ?_⟩
  · cases a <;> simp only [navStep] <;> split <;> simp_all <;> omega
  · simp only [navStep]
    rw [if_pos ⟨hs, hlen⟩]
  · simp only [navStep]
    rw [if_neg (by simp [hlen])]
  · simp only [navStep]
    split
    · rfl
    · rename_i hcond
      have hi : ¬ s.currentIndex < len - 1 := by tauto
      have := hinv hs
      omega
  · simp only [navStep]
    split
    · rfl
    · rename_i hcond
      have hi : s.currentIndex = 0 := by
        by_contra hne
        exact hcond ⟨hs, hb, hne⟩
      omega
  · simp only [navStep]
    split <;> rfl

/-- Witness for C6: with 3 records, `next` at the last index 2 stays at
2, `prev` at index 0 stays at 0, `start` from the list view resets the
index to 0, and `exit` keeps the index. -/
theorem c6_witness :
    (navStep 3 false ⟨true, 2⟩ NavAction.next).currentIndex = min (2 + 1) (3 - 1)
    ∧ (navStep 3 false ⟨true, 0⟩ NavAction.prev).currentIndex = 0 - 1
    ∧ navStep 3 false ⟨false, 5⟩ NavAction.start = ⟨true, 0⟩
    ∧ (navStep 3 false ⟨true, 1⟩ NavAction.leave).currentIndex = 1 :=
  ⟨(c6_navigator 3 false ⟨true, 2⟩ NavAction.next (by decide)).2.2.2.1 rfl rfl,
   (c6_navigator 3 false ⟨true, 0⟩ NavAction.prev (by decide)).2.2.2.2.1 rfl rfl,
   (c6_navigator 3 false ⟨false, 5⟩ NavAction.start (by decide)).2.1 rfl (by decide),
   (c6_navigator 3 false ⟨true, 1⟩ NavAction.leave (by decide)).2.2.2.2.2⟩

/-! ### C7: frame effect of a successful generation -/

/-- C7: a successful `generateLesson(index)` call writes the response
text into the `explanation` of the record at `index` (all other fields
unchanged), leaves every other record untouched, overwrites on a second
successful call for the same index (no merge), and any call that does
not succeed leaves the collection exactly as it was. -/
theorem c7_frame (key : String) (diffs : List CommitDiff) (index : Nat)
    (d : CommitDiff) (content : String)
    (hk : jsStartsWith (jsTrim key) ("sk-") = true)
    (hi : diffs[index]? = some d) (hd : ¬ d.diff = "") :
    ((generateLesson key diffs index (.success (some content))).diffs[index]?
        = some ⟨d.sha, d.message, d.diff, some content⟩)
    ∧ (∀ j, j ≠ index →
        (generateLesson key diffs index (.success (some content))).diffs[j]? = diffs[j]?)
    ∧ (∀ content2 : String,
        (generateLesson key
            (generateLesson key diffs index (.success (some content))).diffs
            index (.success (some content2))).diffs[index]?
          = some ⟨d.sha, d.message, d.diff, some content2⟩)
    ∧ (∀ api : ApiResult,
        (generateLesson key diffs index api).outcome ≠ .ok →
        (generateLesson key diffs index api).diffs = diffs) := by
  have h0 := jsTrim_ne_empty_of_sk key hk
  have hlt := getElem?_lt_length diffs index d hi
  have hmain : (generateLesson key diffs index (.success (some content))).diffs
      = diffs.set index ⟨d.sha, d.message, d.diff, some content⟩ := by
    simp [generateLesson, h0, hk, hi, hd]
  refine ⟨?_, fun j hj => ?_, fun content2 => ?_, fun api hfail => ?_⟩
  · rw [hmain]
    simp [List.getElem?_set_self, hlt]
  · rw [hmain]
    simp [List.getElem?_set_ne, Ne.symm hj]
  · have hset : (diffs.set index ⟨d.sha, d.message, d.diff, some content⟩)[index]?
        = some ⟨d.sha, d.message, d.diff, some content⟩ := by
      simp [List.getElem?_set_self, List.length_set, hlt]
    have hmain2 : (generateLesson key
        (diffs.set index ⟨d.sha, d.message, d.diff, some content⟩)
        index (.success (some content2))).diffs
        = (diffs.set index ⟨d.sha, d.message, d.diff, some content⟩).set index
            ⟨d.sha, d.message, d.diff, some content2⟩ := by
      simp [generateLesson, h0, hk, hset, hd]
    rw [hmain, hmain2]
    simp [List.getElem?_set_self, List.length_set, hlt]
  · cases api with
    | httpError st m => simp [generateLesson, h0, hk, hi, hd]
    | success c =>
      cases c with
      | none => simp [generateLesson, h0, hk, hi, hd]
      | some t =>
        exact absurd (by simp [generateLesson, h0, hk, hi, hd]) hfail

/-- Witness for C7: regenerating index 0 of a two-record collection with
response `new` replaces the prior explanation `old` and leaves record 1
untouched. -/
theorem c7_witness :
    ((generateLesson ("sk-k") [⟨"s1", "m1", "d1", some ("old")⟩, ⟨"s2", "m2", "d2", none⟩] 0
        (.success (some ("new")))).diffs[0]? = some ⟨"s1", "m1", "d1", some ("new")⟩)
    ∧ ((generateLesson ("sk-k") [⟨"s1", "m1", "d1", some ("old")⟩, ⟨"s2", "m2", "d2", none⟩] 0
        (.success (some ("new")))).diffs[1]? = some ⟨"s2", "m2", "d2", none⟩) := by
  have hc := c7_frame ("sk-k") [⟨"s1", "m1", "d1", some ("old")⟩, ⟨"s2", "m2", "d2", none⟩] 0
    ⟨"s1", "m1", "d1", some ("old")⟩ ("new") (by decide) rfl (by decide)
  refine ⟨hc.1, ?_⟩
  rw [hc.2.1 1 (by decide)]
  decide

/-! ### C8: local guards of generateLesson -/

/-- C8 (amended): `generateLesson` rejects locally, before any network
call and without mutating any record: (a) every credential whose TRIMMED
value does not begin with `sk-` is rejected — with a missing-data report
when the trimmed credential is empty and an invalid-credential report
otherwise; (b) when the credential passes, a request for a commit whose
`diffText` is empty is refused with an empty-diff report. In both cases
`request = none`: no chat-completion request is issued. -/
theorem c8_local_guards (key : String) (diffs : List CommitDiff) (i : Nat) (api : ApiResult) :
    (jsStartsWith (jsTrim key) ("sk-") = false →
      generateLesson key diffs i api
        = ⟨diffs, none, if jsTrim key = "" then .missingData else .invalidKey⟩)
    ∧ (jsStartsWith (jsTrim key) ("sk-") = true →
      ∀ d, diffs[i]? = some d → d.diff = "" →
        generateLesson key diffs i api = ⟨diffs, none, .noDiff⟩) := by
  constructor
  · intro hk
    by_cases h0 : jsTrim key = ""
    · simp [generateLesson, h0]
    · simp [generateLesson, h0, hk]
  · intro hk d hi hd
    have h0 := jsTrim_ne_empty_of_sk key hk
    simp [generateLesson, h0, hk, hi, hd]

/-- Witness for C8: `xy` is rejected as an invalid credential, the empty
credential as missing data, and a valid credential with an empty diff as
an empty-diff refusal — in all three cases with no request issued and
the collection unchanged. -/
theorem c8_witness :
    generateLesson ("xy") [⟨"s", "m", "d", none⟩] 0 (.success (some ("L")))
      = ⟨[⟨"s", "m", "d", none⟩], none, .invalidKey⟩
    ∧ generateLesson ("") [⟨"s", "m", "d", none⟩] 0 (.success (some ("L")))
      = ⟨[⟨"s", "m", "d", none⟩], none, .missingData⟩
    ∧ generateLesson ("sk-a") [⟨"s", "m", "", none⟩] 0 (.success (some ("L")))
      = ⟨[⟨"s", "m", "", none⟩], none, .noDiff⟩ := by
  refine ⟨?_, ?_, ?_⟩
  · rw [(c8_local_guards ("xy") [⟨"s", "m", "d", none⟩] 0 (.success (some ("L")))).1 (by decide)]
    decide
  · rw [(c8_local_guards ("") [⟨"s", "m", "d", none⟩] 0 (.success (some ("L")))).1 (by decide)]
    decide
  · exact (c8_local_guards ("sk-a") [⟨"s", "m", "", none⟩] 0
      (.success (some ("L")))).2 (by decide) ⟨"s", "m", "", none⟩ rfl rfl

/-- Counterexample for C8 as stated: the credential `\x20sk-a` (leading
space) does not begin with the literal prefix `sk-`, yet it is not
rejected: the prefix check runs on the trimmed key, and a chat-completion
request is issued. -/
theorem c8_counterexample :
    jsStartsWith (" sk-a") ("sk-") = false
    ∧ (generateLesson (" sk-a") [⟨"s", "m", "d", none⟩] 0
        (.success (some ("L")))).request ≠ none := by
  refine ⟨by decide, by decide⟩

/-! ### C9: all-or-nothing commit enumeration -/

/-- C9: if any page request fails with a non-success status, enumeration
aborts carrying the rate-limit message exactly when the status is 403 and
the generic fetch-failure message otherwise, and the session's commit
collection is left unchanged — no partial list is produced. -/
theorem c9_enum_failure (pageOr : Nat → PageResult) (detailOr : String → DetailResult)
    (fuel : Nat) (old : Option (List CommitDiff)) (n status : Nat)
    (h : enumLoop pageOr fuel 1 = some (n, .error status)) :
    fetchRepoDataModel pageOr detailOr fuel old = (old, some (enumErrMsg status))
    ∧ (status = 403 →
        enumErrMsg status = "GitHub API rate limit reached. Provide a personal token.")
    ∧ (status ≠ 403 → enumErrMsg status = "Failed to fetch commit history") := by
  refine ⟨?_, fun h4 => by simp [enumErrMsg, h4], fun h4 => by simp [enumErrMsg, h4]⟩
  simp [fetchRepoDataModel, h]

/-- Witness for C9: a 403 on the first page aborts enumeration with the
rate-limit message and leaves the previous collection in place. -/
theorem c9_witness :
    enumLoop (fun _ => PageResult.err 403) 1 1 = some (1, Except.error 403)
    ∧ fetchRepoDataModel (fun _ => PageResult.err 403) (fun _ => DetailResult.ok none) 1
        (some [⟨"s", "m", "d", none⟩])
      = (some [⟨"s", "m", "d", none⟩], some (enumErrMsg 403)) :=
  ⟨rfl, (c9_enum_failure (fun _ => PageResult.err 403) (fun _ => DetailResult.ok none) 1
    (some [⟨"s", "m", "d", none⟩]) 1 403 rfl).1⟩

/-! ### C10: validated vs transmitted credential -/

/-- C10: the `sk-` prefix check runs on the trimmed key while the
`Authorization` header is built from the raw untrimmed key: whenever the
trimmed key passes validation, the header sent is `Bearer ` plus the raw
key, and whenever the raw key differs from its trimmed value the header
differs from `Bearer ` plus the validated (trimmed) value. -/
theorem c10_credential_mismatch (key : String) (diffs : List CommitDiff) (i : Nat)
    (d : CommitDiff) (api : ApiResult)
    (hk : jsStartsWith (jsTrim key) ("sk-") = true)
    (hi : diffs[i]? = some d) (hd : ¬ d.diff = "") :
    ((generateLesson key diffs i api).request.map ChatRequest.authHeader
        = some ("Bearer " ++ key))
    ∧ (key ≠ jsTrim key →
        (generateLesson key diffs i api).request.map ChatRequest.authHeader
          ≠ some ("Bearer " ++ jsTrim key)) := by
  have h0 := jsTrim_ne_empty_of_sk key hk
  have hreq : (generateLesson key diffs i api).request.map ChatRequest.authHeader
      = some ("Bearer " ++ key) := by
    cases api with
    | httpError st m => simp [generateLesson, h0, hk, hi, hd]
    | success c => cases c <;> simp [generateLesson, h0, hk, hi, hd]
  refine ⟨hreq, fun hne hcontra => ?_⟩
  rw [hreq] at hcontra
  have heq : "Bearer " ++ key = "Bearer " ++ jsTrim key := Option.some.inj hcontra
  have hdata : ("Bearer " : String).data ++ key.data
      = ("Bearer " : String).data ++ (jsTrim key).data := by
    have := congrArg String.data heq
    simpa [String.data_append] using this
  exact hne (strData_inj key (jsTrim key) (List.append_cancel_left hdata))

/-- Witness for C10: the whitespace-padded credential `\x20sk-a` passes
validation (its trimmed value starts with `sk-`), and the header actually
sent is `Bearer \x20sk-a` — the padded value, not the validated one. -/
theorem c10_witness :
    (generateLesson (" sk-a") [⟨"s", "m", "d", none⟩] 0
        (.success (some ("L")))).request.map ChatRequest.authHeader
      = some ("Bearer " ++ " sk-a")
    ∧ (generateLesson (" sk-a") [⟨"s", "m", "d", none⟩] 0
        (.success (some ("L")))).request.map ChatRequest.authHeader
      ≠ some ("Bearer " ++ jsTrim (" sk-a")) :=
  have hc := c10_credential_mismatch (" sk-a") [⟨"s", "m", "d", none⟩] 0
    ⟨"s", "m", "d", none⟩ (.success (some ("L"))) (by decide) rfl (by decide)
  ⟨hc.1, hc.2 (by decide)⟩

end CodeLearnAI
